import Mathlib

/-!
# brighella: redirect-target and metadata resolution

A shallow embedding of `brighella.go` and theorems about it.

* Go strings are byte sequences (`GoString`); string literals are their UTF-8 bytes.
* A Go function that may panic returns an `Option`: `none` is the run-time panic.
* Go's `(value, error)` results are pairs whose `error` component is `none` for `nil`.
* Everything outside the process (the DNS exchange, the HTTP fetch and HTML parse, the
  environment, the template file) is read from a `World`.
-/

set_option autoImplicit false

namespace Brighella

/-! ## Go strings and the `strings` package -/

/-- A Go `string`: an immutable sequence of bytes. -/
abbrev GoString := List UInt8

/-- The bytes of a Go string literal (Go source text is UTF-8). -/
def str (s : String) : GoString := s.toUTF8.data.toList

/-- Slice expression `s[lo:]`. `none` is the panic "slice bounds out of range". -/
def sliceFrom (s : GoString) (lo : Int) : Option GoString :=
  if 0 ≤ lo ∧ lo ≤ s.length then some (s.drop lo.toNat) else none

/-- Slice expression `s[:hi]`. `none` is the panic "slice bounds out of range". -/
def sliceTo (s : GoString) (hi : Int) : Option GoString :=
  if 0 ≤ hi ∧ hi ≤ s.length then some (s.take hi.toNat) else none

/-- Go `strings.HasPrefix(s, pre)`: `len(s) >= len(pre) && s[:len(pre)] == pre`. -/
def HasPrefix (s pre : GoString) : Bool :=
  decide (pre.length ≤ s.length) && (s.take pre.length == pre)

/-- Search of `strings.Index`: `i` is the index in the whole string of the head of the
remaining suffix. -/
def indexFrom (substr : GoString) : GoString → Int → Int
  | [], i => if HasPrefix [] substr then i else -1
  | c :: t, i => if HasPrefix (c :: t) substr then i else indexFrom substr t (i + 1)

/-- Go `strings.Index(s, substr)`: the index of the first instance of `substr` in `s`,
or `-1` if `substr` is not present in `s`. -/
def Index (s substr : GoString) : Int := indexFrom substr s 0

/-! ## Constants (lines 17–24) and the `net/http`, `dns` constants the code names -/

def dnsPrefix : GoString := str "_frame"
def dnsTitlePrefix : GoString := str "_frame_title"
def dnsFaviconPrefix : GoString := str "_frame_favicon"

/-- Value of `dns.RcodeSuccess` (NOERROR). -/
def RcodeSuccess : Int := 0

/-- Value of `http.StatusFound`. -/
def StatusFound : Nat := 302
/-- Value of `http.StatusTemporaryRedirect`. -/
def StatusTemporaryRedirect : Nat := 307
/-- Value of `http.StatusBadRequest`. -/
def StatusBadRequest : Nat := 400
/-- Value of `http.StatusInternalServerError`. -/
def StatusInternalServerError : Nat := 500

/-! ## Data model -/

/-- Go `html.NodeType`. -/
inductive NodeType where
  | ErrorNode | TextNode | DocumentNode | ElementNode | CommentNode | DoctypeNode | RawNode
deriving DecidableEq, Repr

/-- Go `html.Attribute`. -/
structure Attribute where
  Namespace : GoString
  Key : GoString
  Val : GoString
deriving DecidableEq, Repr

/-- Go `html.Node`: `children` is the `FirstChild`/`NextSibling` chain, in order. -/
inductive Node where
  | mk (Typ : NodeType) (Data : GoString) (Attr : List Attribute) (children : List Node)

/-- Field `n.Type`. -/
def Node.Typ : Node → NodeType
  | .mk t _ _ _ => t

/-- Field `n.Data`. -/
def Node.Data : Node → GoString
  | .mk _ d _ _ => d

/-- Field `n.Attr`. -/
def Node.Attr : Node → List Attribute
  | .mk _ _ a _ => a

/-- The chain `n.FirstChild`, `n.FirstChild.NextSibling`, ... -/
def Node.children : Node → List Node
  | .mk _ _ _ cs => cs

/-- A resource record of an answer section, as the type switches on `a.(type)` see it:
a `*dns.TXT` with its `Txt []string`, or a record of another type. -/
inductive RR where
  | TXT (Txt : List GoString)
  | other
deriving DecidableEq, Repr

/-- The fields of `dns.Msg` the code reads. -/
structure Msg where
  Rcode : Int
  Answer : List RR
deriving DecidableEq, Repr

/-- What lines 155–169 of `fetchPageMetadata` obtain for a URL: a failed `http.Get`, a failed
`io.ReadAll`, a failed `html.Parse`, or the parsed document. -/
inductive PageFetch where
  | getFailed
  | readFailed
  | parseFailed
  | parsed (doc : Node)

/-- The surroundings of one request. `Exchange name` is the outcome of the TXT exchange with
the resolver for the question `dns.Fqdn(name)` (`none`: the exchange returned an error);
`Getenv` is `os.Getenv`; `ParseFiles` tells whether `template.ParseFiles` succeeds. -/
structure World where
  Exchange : GoString → Option Msg
  Fetch : GoString → PageFetch
  Getenv : GoString → GoString
  ParseFiles : GoString → Bool

/-- The non-nil `error` values the code creates, one per site; message texts are not modelled. -/
inductive GoError where
  | exchangeFailed
  | rcodeNotSuccessful (rcode : Int)
  | targetNotFound
  | recordNotFound
  | fetchFailed
  | readFailed
  | parseFailed
deriving DecidableEq, Repr

/-- Go `error`: `none` is `nil`. -/
abbrev error := Option GoError

/-- The struct `frame` (lines 147–151). -/
structure frame where
  Src : GoString
  Title : GoString
  Favicon : GoString
deriving DecidableEq, Repr

/-- The fields of `*http.Request` the handler reads: `r.URL.Path` and `r.Host`. -/
structure Request where
  Path : GoString
  Host : GoString

/-- What a handler writes: `http.Redirect(w, r, url, code)`, `http.Error(w, msg, code)`, or
the executed template over a `frame`. -/
inductive Response where
  | redirect (url : GoString) (code : Nat)
  | httpError (msg : GoString) (code : Nat)
  | page (f : frame)
deriving DecidableEq, Repr

/-! ## queryRedirectTarget (lines 106–137) -/

/-- The loop `for _, a := range r.Answer` of `queryRedirectTarget` (lines 125–131), followed
by the statements after it (lines 133–136). `rr.Txt[0]` panics on an empty `Txt`. -/
def queryRedirectTargetLoop : List RR → Option (GoString × error)
  | [] => some ([], some .targetNotFound)
  | .TXT txt :: _ =>
    match txt.head? with
    | some s => some (s, none)
    | none => none
  | .other :: rest => queryRedirectTargetLoop rest

/-- Go `queryRedirectTarget(host)`. -/
def queryRedirectTarget (w : World) (host : GoString) : Option (GoString × error) :=
  let targetFqdn := dnsPrefix ++ str "." ++ host
  match w.Exchange targetFqdn with
  | none => some ([], some .exchangeFailed)
  | some r =>
    if r.Rcode ≠ RcodeSuccess then
      some ([], some (.rcodeNotSuccessful r.Rcode))
    else
      queryRedirectTargetLoop r.Answer

/-! ## getTitle (lines 139–145) -/

/-- Go `getTitle()`. -/
def getTitle (w : World) : GoString :=
  let title := w.Getenv (str "FRAME_TITLE")
  if title = [] then str "Brighella" else title

/-! ## fetchPageMetadata (lines 153–221) -/

/-- The loop over `n.Attr` (lines 182–190): the final `(rel, href)`. -/
def linkAttrs : List Attribute → GoString × GoString → GoString × GoString
  | [], acc => acc
  | attr :: rest, (rel, href) =>
    if attr.Key = str "rel" then linkAttrs rest (attr.Val, href)
    else if attr.Key = str "href" then linkAttrs rest (rel, attr.Val)
    else linkAttrs rest (rel, href)

/-- Lines 192–205: the value assigned to `favicon` for a matching link with the given `href`.
`none` is the panic of `baseURL[8:]` on a URL shorter than 8 bytes. -/
def normalizeFavicon (url href : GoString) : Option GoString :=
  let favicon := href
  if !HasPrefix favicon (str "http") then
    if HasPrefix favicon (str "/") then
      match sliceFrom url 8 with
      | none => none
      | some tail =>
        let idx := Index tail (str "/")
        if idx ≠ -1 then
          match sliceTo url (8 + idx) with
          | none => none
          | some baseURL => some (baseURL ++ favicon)
        else
          some (url ++ favicon)
    else
      some (url ++ str "/" ++ favicon)
  else
    some favicon

/-- Lines 174–208: what one call of the closure does to the captured `(title, favicon)` at node
`n` before it descends into the children. -/
def visit (url : GoString) (n : Node) (st : GoString × GoString) : Option (GoString × GoString) :=
  if n.Typ = .ElementNode then
    if n.Data = str "title" then
      match n.children with
      | firstChild :: _ => some (firstChild.Data, st.2)
      | [] => some st
    else if n.Data = str "link" then
      let (rel, href) := linkAttrs n.Attr ([], [])
      if rel = str "icon" ∨ rel = str "shortcut icon" then
        match normalizeFavicon url href with
        | none => none
        | some favicon => some (st.1, favicon)
      else some st
    else some st
  else some st

mutual
/-- The closure `extractMetadata` (lines 173–212) as a transformer of the captured
`(title, favicon)`. -/
def extractMetadata (url : GoString) : Node → GoString × GoString → Option (GoString × GoString)
  | .mk typ data attr cs, st =>
    match visit url (.mk typ data attr cs) st with
    | none => none
    | some st1 => extractChildren url cs st1
/-- The loop `for c := n.FirstChild; c != nil; c = c.NextSibling` (lines 209–211). -/
def extractChildren (url : GoString) : List Node → GoString × GoString → Option (GoString × GoString)
  | [], st => some st
  | c :: rest, st =>
    match extractMetadata url c st with
    | none => none
    | some st1 => extractChildren url rest st1
end

/-- Go `fetchPageMetadata(url)`: `(title, favicon, err)`. -/
def fetchPageMetadata (w : World) (url : GoString) : Option (GoString × GoString × error) :=
  match w.Fetch url with
  | .getFailed => some ([], [], some .fetchFailed)
  | .readFailed => some ([], [], some .readFailed)
  | .parseFailed => some ([], [], some .parseFailed)
  | .parsed doc =>
    match extractMetadata url doc ([], []) with
    | none => none
    | some (title, favicon) =>
      let favicon := if favicon = [] then str "https://fav.farm/📸" else favicon
      some (title, favicon, none)

/-! ## queryDNSTXTRecord (lines 223–250) -/

/-- The loop `for _, a := range r.Answer` of `queryDNSTXTRecord` (lines 240–247), followed by
the statement after it (line 249). -/
def queryDNSTXTRecordLoop : List RR → GoString × error
  | [] => ([], some .recordNotFound)
  | .TXT txt :: rest =>
    if 0 < txt.length then
      match txt.head? with
      | some s => (s, none)
      | none => queryDNSTXTRecordLoop rest
    else queryDNSTXTRecordLoop rest
  | .other :: rest => queryDNSTXTRecordLoop rest

/-- Go `queryDNSTXTRecord(host, recordName)`. -/
def queryDNSTXTRecord (w : World) (host recordName : GoString) : GoString × error :=
  let targetFqdn := recordName ++ str "." ++ host
  match w.Exchange targetFqdn with
  | none => ([], some .exchangeFailed)
  | some r =>
    if r.Rcode ≠ RcodeSuccess then
      ([], some (.rcodeNotSuccessful r.Rcode))
    else
      queryDNSTXTRecordLoop r.Answer

/-! ## getMetadata (lines 252–291) -/

/-- The body of `getMetadata` (lines 257–290) over the results of the calls it makes:
`titleLookup` is the result of `queryDNSTXTRecord(host, dnsTitlePrefix)`, `faviconLookup` that
of `queryDNSTXTRecord(host, dnsFaviconPrefix)`, `page` that of `fetchPageMetadata(targetURL)`
(`none` when that call panics) and `defaultTitle` that of `getTitle()`. Each result is
inspected only where the source makes the call. -/
def getMetadataFrom (titleLookup faviconLookup : GoString × error)
    (page : Option (GoString × GoString × error)) (defaultTitle : GoString) :
    Option (GoString × GoString) :=
  let filled : Option (GoString × GoString) :=
    if titleLookup.2 = none ∧ titleLookup.1 ≠ [] then
      some (titleLookup.1, [])
    else
      let favicon : GoString :=
        if faviconLookup.2 = none ∧ faviconLookup.1 ≠ [] then faviconLookup.1 else []
      let title : GoString := []
      if title = [] ∨ favicon = [] then
        match page with
        | none => none
        | some (pageTitle, pageFavicon, err) =>
          if err = none then
            some (if title = [] then pageTitle else title,
                  if favicon = [] then pageFavicon else favicon)
          else some (title, favicon)
      else some (title, favicon)
  match filled with
  | none => none
  | some (title, favicon) =>
    some (if title = [] then defaultTitle else title,
          if favicon = [] then str "https://fav.farm/🎭" else favicon)

/-- Go `getMetadata(host, targetURL)`: `(title, favicon)`. -/
def getMetadata (w : World) (host targetURL : GoString) : Option (GoString × GoString) :=
  getMetadataFrom (queryDNSTXTRecord w host dnsTitlePrefix)
    (queryDNSTXTRecord w host dnsFaviconPrefix) (fetchPageMetadata w targetURL) (getTitle w)

/-! ## The handlers (lines 67–104) -/

/-- Go `(*Server).TemporaryRedirect`. -/
def TemporaryRedirect (strURL : GoString) : Response :=
  .redirect strURL StatusTemporaryRedirect

/-- Go `(*Server).MaskedRedirect`. -/
def MaskedRedirect (w : World) (r : Request) (strURL : GoString) : Option Response :=
  match getMetadata w r.Host strURL with
  | none => none
  | some (title, favicon) =>
    if w.ParseFiles (str "redirect.tmpl") then
      some (.page { Src := strURL, Title := title, Favicon := favicon })
    else
      some (.httpError (str "Template parsing error") StatusInternalServerError)

/-- Go `(*Server).Root`. -/
def Root (w : World) (r : Request) : Option Response :=
  if r.Path ≠ str "/" then
    some (TemporaryRedirect (str "/"))
  else
    match queryRedirectTarget w r.Host with
    | none => none
    | some (targetURL, err) =>
      if err ≠ none then
        some (.httpError (str "Unable to find redirect target") StatusBadRequest)
      else
        MaskedRedirect w r targetURL

/-! ## Specification-side definitions -/

/-- A lookup result that supplies no value: the call failed or returned the empty string. -/
def noValue (r : GoString × error) : Prop := r.2 ≠ none ∨ r.1 = []

instance (r : GoString × error) : Decidable (noValue r) := by
  unfold noValue; exact inferInstance

/-- The byte `/`. -/
def slash : UInt8 := 47

/-- In the spec's words: `b` is `u` truncated just before the first `/` occurring at byte index 8
or later, and `u` itself when there is none. -/
def IsBaseOf (u b : GoString) : Prop :=
  (∃ i : Nat, 8 ≤ i ∧ u[i]? = some slash ∧ (∀ j : Nat, 8 ≤ j → j < i → u[j]? ≠ some slash)
      ∧ b = u.take i)
    ∨ ((∀ j : Nat, 8 ≤ j → u[j]? ≠ some slash) ∧ b = u)

/-- In the spec's words: the favicon for href `h` on fetch URL `u` with base `b`. -/
def specFavicon (u b h : GoString) : GoString :=
  if str "http" <+: h then h
  else if str "/" <+: h then b ++ h
  else u ++ str "/" ++ h

mutual
/-- The nodes of the tree rooted at `n` in depth-first document order (a node before its
children, children left to right). -/
def preorder : Node → List Node
  | .mk t d a cs => .mk t d a cs :: preorderList cs
/-- The nodes of a sequence of sibling trees in depth-first document order. -/
def preorderList : List Node → List Node
  | [] => []
  | c :: cs => preorder c ++ preorderList cs
end

/-- The captured `(title, favicon)` after the closure has handled node `n` alone. -/
def step (url : GoString) (st : GoString × GoString) (n : Node) : GoString × GoString :=
  (visit url n st).getD st

/-- A `<title>` element that has a child (`n.FirstChild != nil`). -/
def isTitleWithChild (n : Node) : Bool :=
  decide (n.Typ = .ElementNode ∧ n.Data = str "title") && !n.children.isEmpty

/-- The `Data` of the first child (`n.FirstChild.Data`), `""` when there is no child. -/
def firstChildData (n : Node) : GoString :=
  match n.children with
  | c :: _ => c.Data
  | [] => []

/-- The value of the last attribute named `key`, `""` when there is none. -/
def attrVal (key : GoString) (attrs : List Attribute) : GoString :=
  match (attrs.filter (fun a => decide (a.Key = key))).getLast? with
  | some a => a.Val
  | none => []

/-- A `<link>` element whose `rel` attribute is exactly `icon` or `shortcut icon`. -/
def isIconLink (n : Node) : Bool :=
  decide (n.Typ = .ElementNode ∧ n.Data = str "link" ∧
    (attrVal (str "rel") n.Attr = str "icon" ∨ attrVal (str "rel") n.Attr = str "shortcut icon"))

/-- The last `<title>` element with a child, in depth-first document order. -/
def lastTitle (doc : Node) : Option Node :=
  ((preorder doc).filter isTitleWithChild).getLast?

/-- The last icon link, in depth-first document order. -/
def lastIconLink (doc : Node) : Option Node :=
  ((preorder doc).filter isIconLink).getLast?

/-- In the words of the claim about titles: the text of the first `<title>` element, in
depth-first document order, that has a text child; `""` when there is none. -/
def firstTitleText (doc : Node) : GoString :=
  match (preorder doc).find? (fun n => decide (n.Typ = .ElementNode ∧ n.Data = str "title") &&
      n.children.any (fun c => decide (c.Typ = .TextNode))) with
  | some n =>
    match n.children.find? (fun c => decide (c.Typ = .TextNode)) with
    | some c => c.Data
    | none => []
  | none => []

/-! ## Example documents and worlds -/

/-- An element node with the given tag, attributes and children. -/
def element (tag : String) (attrs : List Attribute) (cs : List Node) : Node :=
  .mk .ElementNode (str tag) attrs cs

/-- A text node. -/
def text (s : String) : Node := .mk .TextNode (str s) [] []

/-- A document node. -/
def document (cs : List Node) : Node := .mk .DocumentNode [] [] cs

/-- An attribute without namespace. -/
def mkAttr (key val : String) : Attribute :=
  { Namespace := [], Key := str key, Val := str val }

/-- The element `<link rel="icon" href=...>`. -/
def iconLink (href : String) : Node :=
  element "link" [mkAttr "rel" "icon", mkAttr "href" href] []

/-- A page with two `<title>` elements, `A` then `B`. -/
def twoTitlesDoc : Node :=
  document [element "html" []
    [element "head" [] [element "title" [] [text "A"], element "title" [] [text "B"]],
     element "body" [] []]]

/-- The page of the spec's example: `<title>Example</title>` and the icon links `/a.ico`
then `/b.ico`. -/
def twoIconsDoc : Node :=
  document [element "html" []
    [element "head" [] [element "title" [] [text "Example"], iconLink "/a.ico", iconLink "/b.ico"],
     element "body" [] []]]

/-- A page with a title, a stylesheet link and no icon link. -/
def noIconDoc : Node :=
  document [element "html" []
    [element "head" []
      [element "title" [] [text "Plain"],
       element "link" [mkAttr "rel" "stylesheet", mkAttr "href" "/s.css"] []],
     element "body" [] []]]

/-- A page whose only icon link has no `href` attribute. -/
def bareIconDoc : Node :=
  document [element "html" []
    [element "head" [] [element "link" [mkAttr "rel" "shortcut icon"] []],
     element "body" [] []]]

/-- A TXT answer with response code Success holding the single record `txt`. -/
def txtAnswer (txt : List GoString) : Msg := { Rcode := RcodeSuccess, Answer := [.TXT txt] }

/-- A world whose resolver answers the names listed in `records` and reports NXDOMAIN (3) for
every other name, whose HTTP fetch yields `page` for every URL, with an empty environment and
the template file present. -/
def exampleWorld (records : List (GoString × Msg)) (page : PageFetch) : World :=
  { Exchange := fun name =>
      match records.lookup name with
      | some m => some m
      | none => some { Rcode := 3, Answer := [] }
    Fetch := fun _ => page
    Getenv := fun _ => []
    ParseFiles := fun _ => true }

/-- The inbound host of the examples. -/
def exampleHost : GoString := str "mask.example.org"

/-- The fetch URL of the examples. -/
def exampleURL : GoString := str "https://example.com"

/-- A world with a title override and a favicon override for `exampleHost`, whose target page
is `twoIconsDoc`. -/
def overrideWorldA : World :=
  exampleWorld
    [(str "_frame_title.mask.example.org", txtAnswer [str "Masked"]),
     (str "_frame_favicon.mask.example.org", txtAnswer [str "https://cdn.example/f.ico"])]
    (.parsed twoIconsDoc)

/-- A world with the same title override, no favicon override and an unreachable target. -/
def overrideWorldB : World :=
  exampleWorld [(str "_frame_title.mask.example.org", txtAnswer [str "Masked"])] .getFailed

/-- A world whose answer for `_frame.mask.example.org` (and for no other name) is a successful
response holding one TXT record with no strings. -/
def emptyTxtWorld : World :=
  exampleWorld [(str "_frame.mask.example.org", txtAnswer [])] .getFailed

/-! ## Lemmas -/

theorem str_brighella_ne_nil : str "Brighella" ≠ [] := by decide

theorem defaultFavicon_ne_nil : str "https://fav.farm/🎭" ≠ [] := by decide

theorem extractorFavicon_ne_nil : str "https://fav.farm/📸" ≠ [] := by decide

theorem getTitle_ne_nil (w : World) : getTitle w ≠ [] := by
  unfold getTitle
  by_cases h : w.Getenv (str "FRAME_TITLE") = []
  · simp [h, str_brighella_ne_nil]
  · simp [h]

theorem getMetadataFrom_override (v : GoString) (hv : v ≠ []) (faviconLookup : GoString × error)
    (page : Option (GoString × GoString × error)) (defaultTitle : GoString) :
    getMetadataFrom (v, none) faviconLookup page defaultTitle
      = some (v, str "https://fav.farm/🎭") := by
  simp [getMetadataFrom, hv]

theorem str_slash : str "/" = [47] := by decide

theorem HasPrefix_iff (s pre : GoString) : HasPrefix s pre = true ↔ pre <+: s := by
  unfold HasPrefix
  rw [List.prefix_iff_eq_take]
  constructor
  · intro h
    simp only [Bool.and_eq_true, decide_eq_true_eq, beq_iff_eq] at h
    exact h.2.symm
  · intro h
    simp only [Bool.and_eq_true, decide_eq_true_eq, beq_iff_eq]
    refine ⟨?_, h.symm⟩
    have := congrArg List.length h
    simp only [List.length_take] at this
    omega

theorem HasPrefix_cons_single (c x : UInt8) (t : GoString) :
    HasPrefix (c :: t) [x] = decide (c = x) := by
  by_cases h : c = x <;> simp [HasPrefix, h]

theorem indexFrom_single (x : UInt8) (s : GoString) (i : Int) :
    (indexFrom [x] s i = -1 ∧ ∀ j : Nat, s[j]? ≠ some x) ∨
    (∃ k : Nat, indexFrom [x] s i = i + k ∧ k < s.length ∧ s[k]? = some x ∧
      ∀ j : Nat, j < k → s[j]? ≠ some x) := by
  induction s generalizing i with
  | nil =>
    left
    simp [indexFrom, HasPrefix]
  | cons c t ih =>
    by_cases hc : c = x
    · right
      refine ⟨0, ?_, by simp, by simp [hc], by simp⟩
      simp [indexFrom, HasPrefix_cons_single, hc]
    · have hstep : indexFrom [x] (c :: t) i = indexFrom [x] t (i + 1) := by
        simp [indexFrom, HasPrefix_cons_single, hc]
      rcases ih (i + 1) with ⟨h1, h2⟩ | ⟨k, h1, h2, h3, h4⟩
      · left
        refine ⟨by rw [hstep, h1], ?_⟩
        intro j
        cases j with
        | zero => simpa using hc
        | succ j => simpa using h2 j
      · right
        refine ⟨k + 1, ?_, by simpa using h2, by simpa using h3, ?_⟩
        · rw [hstep, h1]; push_cast; ring
        · intro j hj
          cases j with
          | zero => simpa using hc
          | succ j => simpa using h4 j (by omega)

theorem specFavicon_ne_nil (u b h : GoString) : specFavicon u b h ≠ [] := by
  unfold specFavicon
  by_cases h1 : str "http" <+: h
  · simp only [h1, if_true]
    rintro rfl
    revert h1
    decide
  · simp only [h1, if_false]
    by_cases h2 : str "/" <+: h
    · simp only [h2, if_true]
      rintro h3
      have : h = [] := (List.append_eq_nil.mp h3).2
      subst this
      revert h2
      decide
    · simp only [h2, if_false]
      rw [str_slash]
      simp

theorem normalizeFavicon_eq (u h : GoString) (hlen : 8 ≤ u.length) :
    ∃ b, IsBaseOf u b ∧ normalizeFavicon u h = some (specFavicon u b h) := by
  have hslice : sliceFrom u 8 = some (u.drop 8) := by
    simp only [sliceFrom]
    rw [if_pos ⟨by norm_num, by exact_mod_cast hlen⟩]
    rfl
  have hidx := indexFrom_single slash (u.drop 8) 0
  have hI : Index (u.drop 8) (str "/") = indexFrom [slash] (u.drop 8) 0 := by
    rw [str_slash]; rfl
  rcases hidx with ⟨h1, h2⟩ | ⟨k, h1, h2, h3, h4⟩
  · refine ⟨u, Or.inr ⟨?_, rfl⟩, ?_⟩
    · intro j hj
      have := h2 (j - 8)
      rw [List.getElem?_drop] at this
      rwa [show 8 + (j - 8) = j by omega] at this
    · unfold normalizeFavicon specFavicon
      by_cases p1 : str "http" <+: h
      · have : HasPrefix h (str "http") = true := (HasPrefix_iff _ _).mpr p1
        simp [this, p1]
      · have q1 : HasPrefix h (str "http") = false := by
          rw [← Bool.not_eq_true, HasPrefix_iff]; exact p1
        by_cases p2 : str "/" <+: h
        · have q2 : HasPrefix h (str "/") = true := (HasPrefix_iff _ _).mpr p2
          simp [q1, q2, p1, p2, hslice, hI, h1]
        · have q2 : HasPrefix h (str "/") = false := by
            rw [← Bool.not_eq_true, HasPrefix_iff]; exact p2
          simp [q1, q2, p1, p2]
  · have hk : 8 + k ≤ u.length := by
      simp only [List.length_drop] at h2; omega
    refine ⟨u.take (8 + k), Or.inl ⟨8 + k, by omega, ?_, ?_, rfl⟩, ?_⟩
    · rw [List.getElem?_drop] at h3; exact h3
    · intro j hj1 hj2
      have := h4 (j - 8) (by omega)
      rw [List.getElem?_drop] at this
      rwa [show 8 + (j - 8) = j by omega] at this
    · have hto : sliceTo u (8 + (k : Int)) = some (u.take (8 + k)) := by
        simp only [sliceTo]
        rw [if_pos ⟨by omega, by exact_mod_cast hk⟩]
        congr 2
      have hne : (0 : Int) + (k : Int) ≠ -1 := by omega
      unfold normalizeFavicon specFavicon
      by_cases p1 : str "http" <+: h
      · have : HasPrefix h (str "http") = true := (HasPrefix_iff _ _).mpr p1
        simp [this, p1]
      · have q1 : HasPrefix h (str "http") = false := by
          rw [← Bool.not_eq_true, HasPrefix_iff]; exact p1
        by_cases p2 : str "/" <+: h
        · have q2 : HasPrefix h (str "/") = true := (HasPrefix_iff _ _).mpr p2
          simp only [q1, q2, p1, p2, hslice, hI, h1]
          simp only [Bool.not_false, if_true, if_false, ne_eq, hne, not_false_eq_true]
          have hto2 : sliceTo u (8 + ((0 : Int) + (k : Int))) = some (u.take (8 + k)) := by
            rw [zero_add]; exact hto
          rw [hto2]
        · have q2 : HasPrefix h (str "/") = false := by
            rw [← Bool.not_eq_true, HasPrefix_iff]; exact p2
          simp [q1, q2, p1, p2]

mutual
theorem extractMetadata_fold (url : GoString) :
    ∀ (n : Node) (st st1 : GoString × GoString), extractMetadata url n st = some st1 →
      st1 = (preorder n).foldl (step url) st
  | .mk t d a cs, st, st1, h => by
    rw [extractMetadata] at h
    cases hv : visit url (.mk t d a cs) st with
    | none => rw [hv] at h; cases h
    | some st2 =>
      rw [hv] at h
      have hc := extractChildren_fold url cs st2 st1 h
      rw [preorder, List.foldl_cons, step, hv]
      exact hc
theorem extractChildren_fold (url : GoString) :
    ∀ (cs : List Node) (st st1 : GoString × GoString), extractChildren url cs st = some st1 →
      st1 = (preorderList cs).foldl (step url) st
  | [], st, st1, h => by
    rw [extractChildren] at h
    cases h
    rfl
  | c :: rest, st, st1, h => by
    rw [extractChildren] at h
    cases hm : extractMetadata url c st with
    | none => rw [hm] at h; cases h
    | some st2 =>
      rw [hm] at h
      have h1 := extractMetadata_fold url c st st2 hm
      have h2 := extractChildren_fold url rest st2 st1 h
      rw [preorderList, List.foldl_append, ← h1]
      exact h2
end

theorem visit_isSome (url : GoString) (hlen : 8 ≤ url.length) (n : Node)
    (st : GoString × GoString) : ∃ st1, visit url n st = some st1 := by
  unfold visit
  split_ifs with h1 h2 h3
  · cases n.children <;> simp
  · obtain ⟨b, _, hb⟩ := normalizeFavicon_eq url (linkAttrs n.Attr ([], [])).2 hlen
    simp only [hb]
    split_ifs <;> exact ⟨_, rfl⟩
  · exact ⟨_, rfl⟩
  · exact ⟨_, rfl⟩

mutual
theorem extractMetadata_isSome (url : GoString) (hlen : 8 ≤ url.length) :
    ∀ (n : Node) (st : GoString × GoString), ∃ st1, extractMetadata url n st = some st1
  | .mk t d a cs, st => by
    obtain ⟨st2, hv⟩ := visit_isSome url hlen (.mk t d a cs) st
    obtain ⟨st1, hc⟩ := extractChildren_isSome url hlen cs st2
    exact ⟨st1, by rw [extractMetadata, hv]; exact hc⟩
theorem extractChildren_isSome (url : GoString) (hlen : 8 ≤ url.length) :
    ∀ (cs : List Node) (st : GoString × GoString), ∃ st1, extractChildren url cs st = some st1
  | [], st => ⟨st, by rw [extractChildren]⟩
  | c :: rest, st => by
    obtain ⟨st2, hm⟩ := extractMetadata_isSome url hlen c st
    obtain ⟨st1, hc⟩ := extractChildren_isSome url hlen rest st2
    exact ⟨st1, by rw [extractChildren, hm]; exact hc⟩
end

theorem getLast_filter_cons {α β : Type} (p : α → Bool) (g : α → β) (a : α) (l : List α)
    (d : β) :
    (((a :: l).filter p).getLast?.map g).getD d
      = ((l.filter p).getLast?.map g).getD (if p a = true then g a else d) := by
  by_cases h : p a = true
  · rw [List.filter_cons_of_pos h, if_pos h]
    cases hl : l.filter p with
    | nil => simp
    | cons b t =>
      have hb : (b :: t).getLast? = some ((b :: t).getLast (List.cons_ne_nil _ _)) :=
        List.getLast?_eq_getLast _ _
      simp [List.getLast?_cons_cons, hb]
  · rw [List.filter_cons_of_neg h, if_neg h]

theorem linkAttrs_eq (attrs : List Attribute) (rel href : GoString) :
    linkAttrs attrs (rel, href)
      = ((((attrs.filter (fun a => decide (a.Key = str "rel"))).getLast?.map Attribute.Val).getD rel),
         (((attrs.filter (fun a => decide (a.Key = str "href"))).getLast?.map Attribute.Val).getD href)) := by
  have hne : str "rel" ≠ str "href" := by decide
  induction attrs generalizing rel href with
  | nil => simp [linkAttrs]
  | cons a rest ih =>
    rw [getLast_filter_cons, getLast_filter_cons]
    by_cases h1 : a.Key = str "rel"
    · have h2 : a.Key ≠ str "href" := by rw [h1]; exact hne
      rw [linkAttrs, if_pos h1, ih]
      simp only [decide_eq_true_eq, if_pos h1, if_neg h2]
    · by_cases h2 : a.Key = str "href"
      · rw [linkAttrs, if_neg h1, if_pos h2, ih]
        simp only [decide_eq_true_eq, if_neg h1, if_pos h2]
      · rw [linkAttrs, if_neg h1, if_neg h2, ih]
        simp only [decide_eq_true_eq, if_neg h1, if_neg h2]

theorem linkAttrs_attrVal (attrs : List Attribute) :
    linkAttrs attrs ([], []) = (attrVal (str "rel") attrs, attrVal (str "href") attrs) := by
  rw [linkAttrs_eq]
  unfold attrVal
  congr 1
  · cases (attrs.filter (fun a => decide (a.Key = str "rel"))).getLast? <;> rfl
  · cases (attrs.filter (fun a => decide (a.Key = str "href"))).getLast? <;> rfl

theorem step_fst (url : GoString) (st : GoString × GoString) (n : Node) :
    (step url st n).1 = if isTitleWithChild n = true then firstChildData n else st.1 := by
  have hne : str "link" ≠ str "title" := by decide
  unfold step visit isTitleWithChild firstChildData
  by_cases h1 : n.Typ = .ElementNode
  · by_cases h2 : n.Data = str "title"
    · cases hc : n.children with
      | nil => simp [h1, h2]
      | cons c cs => simp [h1, h2]
    · by_cases h3 : n.Data = str "link"
      · by_cases h4 : (linkAttrs n.Attr ([], [])).1 = str "icon" ∨
            (linkAttrs n.Attr ([], [])).1 = str "shortcut icon"
        · cases hn : normalizeFavicon url (linkAttrs n.Attr ([], [])).2 <;>
            simp [h1, h3, h4, hn, hne]
        · simp [h1, h3, h4, hne]
      · simp [h1, h2, h3]
  · simp [h1]

theorem step_snd (url : GoString) (hlen : 8 ≤ url.length) (st : GoString × GoString)
    (n : Node) :
    (step url st n).2
      = if isIconLink n = true then
          (normalizeFavicon url (attrVal (str "href") n.Attr)).getD []
        else st.2 := by
  have hne : str "link" ≠ str "title" := by decide
  unfold step visit isIconLink
  rw [linkAttrs_attrVal]
  by_cases h1 : n.Typ = .ElementNode
  · by_cases h2 : n.Data = str "title"
    · cases hc : n.children with
      | nil => simp [h1, h2, hne.symm]
      | cons c cs => simp [h1, h2, hne.symm]
    · by_cases h3 : n.Data = str "link"
      · obtain ⟨b, _, hb⟩ := normalizeFavicon_eq url (attrVal (str "href") n.Attr) hlen
        by_cases h4 : attrVal (str "rel") n.Attr = str "icon" ∨
            attrVal (str "rel") n.Attr = str "shortcut icon"
        · simp [h1, h3, h4, hb, hne]
        · simp [h1, h3, h4, hne]
      · simp [h1, h2, h3]
  · simp [h1]

theorem foldl_step_fst (url : GoString) (l : List Node) (st : GoString × GoString) :
    (l.foldl (step url) st).1
      = ((l.filter isTitleWithChild).getLast?.map firstChildData).getD st.1 := by
  induction l generalizing st with
  | nil => simp
  | cons a l ih =>
    rw [List.foldl_cons, ih, getLast_filter_cons, step_fst]

theorem foldl_step_snd (url : GoString) (hlen : 8 ≤ url.length) (l : List Node)
    (st : GoString × GoString) :
    (l.foldl (step url) st).2
      = ((l.filter isIconLink).getLast?.map
          (fun n => (normalizeFavicon url (attrVal (str "href") n.Attr)).getD [])).getD st.2 := by
  induction l generalizing st with
  | nil => simp
  | cons a l ih =>
    rw [List.foldl_cons, ih, getLast_filter_cons, step_snd url hlen]

theorem IsBaseOf_unique (u b c : GoString) (hb : IsBaseOf u b) (hc : IsBaseOf u c) : b = c := by
  rcases hb with ⟨i, hi, hs, hmin, rfl⟩ | ⟨hno, rfl⟩
  · rcases hc with ⟨k, hk, hs2, hmin2, rfl⟩ | ⟨hno2, rfl⟩
    · have h1 : ¬ i < k := fun h => hmin2 i hi h hs
      have h2 : ¬ k < i := fun h => hmin k hk h hs2
      have : i = k := by omega
      rw [this]
    · exact absurd hs (hno2 i hi)
  · rcases hc with ⟨k, hk, hs2, _, rfl⟩ | ⟨_, rfl⟩
    · exact absurd hs2 (hno k hk)
    · rfl

theorem normalizeFavicon_ne_nil (u h f : GoString) (hlen : 8 ≤ u.length)
    (hf : normalizeFavicon u h = some f) : f ≠ [] := by
  obtain ⟨b, _, hb⟩ := normalizeFavicon_eq u h hlen
  rw [hb] at hf
  cases hf
  exact specFavicon_ne_nil u b h

theorem fetchPageMetadata_parsed (w : World) (url : GoString) (doc : Node)
    (hfetch : w.Fetch url = .parsed doc) (st : GoString × GoString)
    (hext : extractMetadata url doc ([], []) = some st) :
    fetchPageMetadata w url
      = some (st.1, if st.2 = [] then str "https://fav.farm/📸" else st.2, none) := by
  obtain ⟨t, f⟩ := st
  simp only [fetchPageMetadata, hfetch, hext]

theorem fetchPageMetadata_title (w : World) (url : GoString) (doc : Node)
    (hfetch : w.Fetch url = .parsed doc) (title favicon : GoString) (e : error)
    (hret : fetchPageMetadata w url = some (title, favicon, e)) :
    title = ((lastTitle doc).map firstChildData).getD [] := by
  cases hext : extractMetadata url doc ([], []) with
  | none =>
    simp only [fetchPageMetadata, hfetch, hext] at hret
    cases hret
  | some st =>
    rw [fetchPageMetadata_parsed w url doc hfetch st hext] at hret
    have h1 : st.1 = title := by
      have := congrArg (fun o => o.map (fun p => p.1)) hret
      simpa using this
    have hfold := extractMetadata_fold url doc ([], []) st hext
    rw [← h1, hfold, foldl_step_fst]
    rfl

theorem fetchPageMetadata_long (w : World) (url : GoString) (doc : Node)
    (hlen : 8 ≤ url.length) (hfetch : w.Fetch url = .parsed doc) :
    fetchPageMetadata w url
      = some (((lastTitle doc).map firstChildData).getD [],
          (match lastIconLink doc with
           | some n => (normalizeFavicon url (attrVal (str "href") n.Attr)).getD []
           | none => str "https://fav.farm/📸"),
          none) := by
  obtain ⟨st, hext⟩ := extractMetadata_isSome url hlen doc ([], [])
  rw [fetchPageMetadata_parsed w url doc hfetch st hext]
  have hfold := extractMetadata_fold url doc ([], []) st hext
  have h1 : st.1 = ((lastTitle doc).map firstChildData).getD [] := by
    rw [hfold, foldl_step_fst]; rfl
  have h2 : st.2 = ((lastIconLink doc).map
      (fun n => (normalizeFavicon url (attrVal (str "href") n.Attr)).getD [])).getD [] := by
    rw [hfold, foldl_step_snd url hlen]; rfl
  rw [h1, h2]
  cases hl : lastIconLink doc with
  | none => simp
  | some n =>
    obtain ⟨b, _, hb⟩ := normalizeFavicon_eq url (attrVal (str "href") n.Attr) hlen
    have hne := specFavicon_ne_nil url b (attrVal (str "href") n.Attr)
    simp [hb, hne]

theorem queryRedirectTargetLoop_first (answer : List RR) (s : GoString) (rest : List GoString)
    (before after : List RR) (hsplit : answer = before ++ .TXT (s :: rest) :: after)
    (hbefore : ∀ a ∈ before, a = RR.other) :
    queryRedirectTargetLoop answer = some (s, none) := by
  subst hsplit
  induction before with
  | nil => simp [queryRedirectTargetLoop]
  | cons a t ih =>
    have ha : a = RR.other := hbefore a (by simp)
    subst ha
    simp only [List.cons_append, queryRedirectTargetLoop]
    exact ih (fun x hx => hbefore x (by simp [hx]))

theorem queryRedirectTargetLoop_none (answer : List RR) (hall : ∀ a ∈ answer, a = RR.other) :
    queryRedirectTargetLoop answer = some ([], some .targetNotFound) := by
  induction answer with
  | nil => simp [queryRedirectTargetLoop]
  | cons a t ih =>
    have ha : a = RR.other := hall a (by simp)
    subst ha
    simp only [queryRedirectTargetLoop]
    exact ih (fun x hx => hall x (by simp [hx]))

/-- Whenever the first TXT record of the answer section holds at least one string,
`queryRedirectTarget` returns that record's first string and a nil error; it returns the empty
string and an error when the exchange fails, when the response code is not Success and when
the answer section holds no TXT record. -/
theorem queryRedirectTarget_cases (w : World) (host : GoString) :
    (w.Exchange (dnsPrefix ++ str "." ++ host) = none →
      queryRedirectTarget w host = some ([], some .exchangeFailed)) ∧
    (∀ r, w.Exchange (dnsPrefix ++ str "." ++ host) = some r → r.Rcode ≠ RcodeSuccess →
      queryRedirectTarget w host = some ([], some (.rcodeNotSuccessful r.Rcode))) ∧
    (∀ r, w.Exchange (dnsPrefix ++ str "." ++ host) = some r → r.Rcode = RcodeSuccess →
      (∀ a ∈ r.Answer, a = RR.other) →
      queryRedirectTarget w host = some ([], some .targetNotFound)) ∧
    (∀ r s rest before after, w.Exchange (dnsPrefix ++ str "." ++ host) = some r →
      r.Rcode = RcodeSuccess → r.Answer = before ++ .TXT (s :: rest) :: after →
      (∀ a ∈ before, a = RR.other) →
      queryRedirectTarget w host = some (s, none)) := by
  refine ⟨?_, ?_, ?_, ?_⟩
  · intro h
    simp only [queryRedirectTarget, h]
  · intro r h hr
    simp only [queryRedirectTarget, h, if_pos hr]
  · intro r h hr hall
    simp only [queryRedirectTarget, h, if_neg (not_not.mpr hr)]
    exact queryRedirectTargetLoop_none r.Answer hall
  · intro r s rest before after h hr hsplit hbefore
    simp only [queryRedirectTarget, h, if_neg (not_not.mpr hr)]
    exact queryRedirectTargetLoop_first r.Answer s rest before after hsplit hbefore

theorem getMetadataFrom_page (titleLookup faviconLookup : GoString × error)
    (pt pf defaultTitle : GoString) (ht : noValue titleLookup) (hf : noValue faviconLookup) :
    getMetadataFrom titleLookup faviconLookup (some (pt, pf, none)) defaultTitle
      = some (if pt = [] then defaultTitle else pt,
              if pf = [] then str "https://fav.farm/🎭" else pf) := by
  have h1 : ¬ (titleLookup.2 = none ∧ titleLookup.1 ≠ []) := by
    rintro ⟨ha, hb⟩
    rcases ht with h | h
    · exact h ha
    · exact hb h
  have h2 : ¬ (faviconLookup.2 = none ∧ faviconLookup.1 ≠ []) := by
    rintro ⟨ha, hb⟩
    rcases hf with h | h
    · exact h ha
    · exact hb h
  simp [getMetadataFrom, h1, h2]

theorem getMetadataFrom_failed (titleLookup faviconLookup : GoString × error)
    (pt pf defaultTitle : GoString) (e : GoError) (ht : noValue titleLookup)
    (hf : noValue faviconLookup) :
    getMetadataFrom titleLookup faviconLookup (some (pt, pf, some e)) defaultTitle
      = some (defaultTitle, str "https://fav.farm/🎭") := by
  have h1 : ¬ (titleLookup.2 = none ∧ titleLookup.1 ≠ []) := by
    rintro ⟨ha, hb⟩
    rcases ht with h | h
    · exact h ha
    · exact hb h
  have h2 : ¬ (faviconLookup.2 = none ∧ faviconLookup.1 ≠ []) := by
    rintro ⟨ha, hb⟩
    rcases hf with h | h
    · exact h ha
    · exact hb h
  simp [getMetadataFrom, h1, h2]

theorem fetchPageMetadata_failed (w : World) (url : GoString)
    (hfetch : ∀ doc, w.Fetch url ≠ .parsed doc) :
    ∃ e : GoError, fetchPageMetadata w url = some ([], [], some e) := by
  unfold fetchPageMetadata
  cases h : w.Fetch url with
  | getFailed => exact ⟨_, rfl⟩
  | readFailed => exact ⟨_, rfl⟩
  | parseFailed => exact ⟨_, rfl⟩
  | parsed doc => exact absurd h (hfetch doc)

/-! ## The claims -/

/-- C1: for every outcome of the two DNS TXT override lookups, every outcome of the page fetch
(a success with any title and favicon, or a failure) and every value of the `FRAME_TITLE`
environment variable, `getMetadata` returns a title and a favicon that are both non-empty. -/
theorem getMetadata_nonempty (titleLookup faviconLookup : GoString × error)
    (page : GoString × GoString × error) (w : World) :
    ∃ title favicon,
      getMetadataFrom titleLookup faviconLookup (some page) (getTitle w) = some (title, favicon)
        ∧ title ≠ [] ∧ favicon ≠ [] := by
  obtain ⟨pt, pf, e⟩ := page
  have hT := getTitle_ne_nil w
  have hF := defaultFavicon_ne_nil
  by_cases h1 : titleLookup.2 = none ∧ titleLookup.1 ≠ []
  · refine ⟨titleLookup.1, str "https://fav.farm/🎭", ?_, h1.2, hF⟩
    simp [getMetadataFrom, h1]
  · by_cases h2 : faviconLookup.2 = none ∧ faviconLookup.1 ≠ []
    · by_cases he : e = none
      · by_cases hpt : pt = []
        · refine ⟨getTitle w, faviconLookup.1, ?_, hT, h2.2⟩
          simp [getMetadataFrom, h1, h2, he, hpt]
        · refine ⟨pt, faviconLookup.1, ?_, hpt, h2.2⟩
          simp [getMetadataFrom, h1, h2, he, hpt]
      · refine ⟨getTitle w, faviconLookup.1, ?_, hT, h2.2⟩
        simp [getMetadataFrom, h1, h2, he]
    · by_cases he : e = none
      · by_cases hpt : pt = []
        · by_cases hpf : pf = []
          · refine ⟨getTitle w, str "https://fav.farm/🎭", ?_, hT, hF⟩
            simp [getMetadataFrom, h1, h2, he, hpt, hpf]
          · refine ⟨getTitle w, pf, ?_, hT, hpf⟩
            simp [getMetadataFrom, h1, h2, he, hpt, hpf]
        · by_cases hpf : pf = []
          · refine ⟨pt, str "https://fav.farm/🎭", ?_, hpt, hF⟩
            simp [getMetadataFrom, h1, h2, he, hpt, hpf]
          · refine ⟨pt, pf, ?_, hpt, hpf⟩
            simp [getMetadataFrom, h1, h2, he, hpt, hpf]
      · refine ⟨getTitle w, str "https://fav.farm/🎭", ?_, hT, hF⟩
        simp [getMetadataFrom, h1, h2, he]

/-- C2: when the `_frame_title` lookup for the host succeeds with a non-empty value `v`,
`getMetadata` returns the title `v` and the favicon `https://fav.farm/🎭`; a second run that
differs in the favicon override, in the target URL and in the target page returns the same. -/
theorem title_override_wins (w1 w2 : World) (host url1 url2 v : GoString) (hv : v ≠ [])
    (h1 : queryDNSTXTRecord w1 host dnsTitlePrefix = (v, none))
    (h2 : queryDNSTXTRecord w2 host dnsTitlePrefix = (v, none)) :
    getMetadata w1 host url1 = some (v, str "https://fav.farm/🎭")
      ∧ getMetadata w2 host url2 = getMetadata w1 host url1 := by
  have e1 : getMetadata w1 host url1 = some (v, str "https://fav.farm/🎭") := by
    unfold getMetadata
    rw [h1]
    exact getMetadataFrom_override v hv _ _ _
  have e2 : getMetadata w2 host url2 = some (v, str "https://fav.farm/🎭") := by
    unfold getMetadata
    rw [h2]
    exact getMetadataFrom_override v hv _ _ _
  exact ⟨e1, e2.trans e1.symm⟩

/-- Witness of C2: two worlds with the title override `Masked` that differ in the favicon
override, the target URL and the target page. -/
theorem title_override_wins_witness :
    str "Masked" ≠ []
      ∧ queryDNSTXTRecord overrideWorldA exampleHost dnsTitlePrefix = (str "Masked", none)
      ∧ queryDNSTXTRecord overrideWorldB exampleHost dnsTitlePrefix = (str "Masked", none)
      ∧ queryDNSTXTRecord overrideWorldA exampleHost dnsFaviconPrefix
          = (str "https://cdn.example/f.ico", none)
      ∧ getMetadata overrideWorldA exampleHost exampleURL
          = some (str "Masked", str "https://fav.farm/🎭")
      ∧ getMetadata overrideWorldB exampleHost (str "http://unreachable.example")
          = getMetadata overrideWorldA exampleHost exampleURL :=
  have h := title_override_wins overrideWorldA overrideWorldB exampleHost exampleURL
    (str "http://unreachable.example") (str "Masked") (by decide) (by decide) (by decide)
  ⟨by decide, by decide, by decide, by decide, h.1, h.2⟩

/-- C3: when the `_frame_title` lookup fails or returns the empty string and the
`_frame_favicon` lookup succeeds with a non-empty value `f`, `getMetadata` returns the favicon
`f` for every outcome of the page fetch (a success with any favicon, or a failure). -/
theorem favicon_override_kept (titleLookup : GoString × error) (f : GoString)
    (page : GoString × GoString × error) (defaultTitle : GoString)
    (ht : noValue titleLookup) (hf : f ≠ []) :
    ∃ title, getMetadataFrom titleLookup (f, none) (some page) defaultTitle = some (title, f) := by
  obtain ⟨pt, pf, e⟩ := page
  have h1 : ¬ (titleLookup.2 = none ∧ titleLookup.1 ≠ []) := by
    rintro ⟨ha, hb⟩
    rcases ht with h | h
    · exact h ha
    · exact hb h
  by_cases he : e = none
  · exact ⟨_, by simp [getMetadataFrom, h1, hf, he]; rfl⟩
  · exact ⟨_, by simp [getMetadataFrom, h1, hf, he]; rfl⟩

/-- Witness of C3: no title record, a favicon override, and a page that has its own favicon. -/
theorem favicon_override_kept_witness :
    noValue (([] : GoString), some GoError.recordNotFound)
      ∧ str "https://cdn.example/f.ico" ≠ []
      ∧ ∃ title, getMetadataFrom ([], some GoError.recordNotFound)
          (str "https://cdn.example/f.ico", none)
          (some (str "Example", str "https://example.com/b.ico", none)) (str "Brighella")
            = some (title, str "https://cdn.example/f.ico") :=
  ⟨by decide, by decide,
    favicon_override_kept ([], some GoError.recordNotFound) (str "https://cdn.example/f.ico")
      (str "Example", str "https://example.com/b.ico", none) (str "Brighella")
      (by decide) (by decide)⟩

/-- C4, as the claim states it, fails: on a page with the titles `A` then `B` the first
`<title>` element with a text child has the text `A`, and `fetchPageMetadata` returns `B`. -/
theorem first_title_not_returned :
    fetchPageMetadata (exampleWorld [] (.parsed twoTitlesDoc)) exampleURL
        = some (str "B", str "https://fav.farm/📸", none)
      ∧ firstTitleText twoTitlesDoc = str "A"
      ∧ str "B" ≠ firstTitleText twoTitlesDoc := by
  decide

/-- C4, amended: the title returned by a successful `fetchPageMetadata` is the `Data` of the
first child of the last `<title>` element, in depth-first document order, that has a child, and
is empty when there is no such element; for a fetch URL of at least 8 bytes the call succeeds
with that title. -/
theorem last_title_wins (w : World) (url : GoString) (doc : Node)
    (hfetch : w.Fetch url = .parsed doc) :
    (∀ title favicon, fetchPageMetadata w url = some (title, favicon, none) →
        title = match lastTitle doc with
                | some n => firstChildData n
                | none => [])
      ∧ (8 ≤ url.length → ∃ favicon, fetchPageMetadata w url
          = some ((match lastTitle doc with
                   | some n => firstChildData n
                   | none => []), favicon, none)) := by
  have hm : ((lastTitle doc).map firstChildData).getD []
      = match lastTitle doc with
        | some n => firstChildData n
        | none => [] := by
    cases lastTitle doc <;> rfl
  constructor
  · intro title favicon hret
    rw [← hm]
    exact fetchPageMetadata_title w url doc hfetch title favicon none hret
  · intro hlen
    rw [← hm]
    exact ⟨_, fetchPageMetadata_long w url doc hlen hfetch⟩

/-- Witness of the amended C4 on the page with the titles `A` then `B`. -/
theorem last_title_wins_witness :
    (exampleWorld [] (.parsed twoTitlesDoc)).Fetch exampleURL = .parsed twoTitlesDoc
      ∧ lastTitle twoTitlesDoc = some (element "title" [] [text "B"])
      ∧ fetchPageMetadata (exampleWorld [] (.parsed twoTitlesDoc)) exampleURL
          = some (str "B", str "https://fav.farm/📸", none)
      ∧ str "B" = (match lastTitle twoTitlesDoc with
                   | some n => firstChildData n
                   | none => []) :=
  ⟨rfl, rfl, by decide,
    (last_title_wins (exampleWorld [] (.parsed twoTitlesDoc)) exampleURL twoTitlesDoc rfl).1
      (str "B") (str "https://fav.farm/📸") (by decide)⟩

/-- C5: for a fetch URL of at least 8 bytes and a parsed document whose last `<link>` element
with `rel` exactly `icon` or `shortcut icon`, in depth-first document order, is `n`,
`fetchPageMetadata` succeeds and its favicon is the normalization of the `href` of `n`; the
earlier matching links have no effect. -/
theorem last_icon_link_wins (w : World) (url : GoString) (doc n : Node)
    (hlen : 8 ≤ url.length) (hfetch : w.Fetch url = .parsed doc)
    (hlast : lastIconLink doc = some n) :
    ∃ title favicon, fetchPageMetadata w url = some (title, favicon, none)
      ∧ normalizeFavicon url (attrVal (str "href") n.Attr) = some favicon := by
  obtain ⟨b, _, hb⟩ := normalizeFavicon_eq url (attrVal (str "href") n.Attr) hlen
  refine ⟨((lastTitle doc).map firstChildData).getD [],
    specFavicon url b (attrVal (str "href") n.Attr), ?_, hb⟩
  rw [fetchPageMetadata_long w url doc hlen hfetch, hlast]
  simp only [hb, Option.getD_some]

/-- Witness of C5: the icon links `/a.ico` then `/b.ico` on `https://example.com` give
`https://example.com/b.ico`. -/
theorem last_icon_link_wins_witness :
    8 ≤ exampleURL.length
      ∧ (exampleWorld [] (.parsed twoIconsDoc)).Fetch exampleURL = .parsed twoIconsDoc
      ∧ lastIconLink twoIconsDoc = some (iconLink "/b.ico")
      ∧ fetchPageMetadata (exampleWorld [] (.parsed twoIconsDoc)) exampleURL
          = some (str "Example", str "https://example.com/b.ico", none)
      ∧ ∃ title favicon,
          fetchPageMetadata (exampleWorld [] (.parsed twoIconsDoc)) exampleURL
              = some (title, favicon, none)
            ∧ normalizeFavicon exampleURL (attrVal (str "href") (iconLink "/b.ico").Attr)
              = some favicon :=
  ⟨by decide, rfl, rfl, by decide,
    last_icon_link_wins (exampleWorld [] (.parsed twoIconsDoc)) exampleURL twoIconsDoc
      (iconLink "/b.ico") (by decide) rfl rfl⟩

/-- C6: for a fetch URL `u` of at least 8 bytes and an href `h`, the normalization yields `h`
when `h` begins with `http`; otherwise, when `h` begins with `/`, `b ++ h` where `b` is `u`
truncated just before the first `/` at byte index 8 or later (`u` itself when there is none);
otherwise `u ++ "/" ++ h`. Such a `b` exists and is the only one. -/
theorem favicon_normalization (u h : GoString) (hlen : 8 ≤ u.length) :
    (∃ b, IsBaseOf u b)
      ∧ ∀ b, IsBaseOf u b →
          normalizeFavicon u h
            = some (if str "http" <+: h then h
                    else if str "/" <+: h then b ++ h
                    else u ++ str "/" ++ h) := by
  obtain ⟨c, hc, hn⟩ := normalizeFavicon_eq u h hlen
  refine ⟨⟨c, hc⟩, ?_⟩
  intro b hb
  rw [IsBaseOf_unique u b c hb hc, hn]
  rfl

/-- Witness of C6: the literal examples on the page `https://example.com/path`. -/
theorem favicon_normalization_witness :
    8 ≤ (str "https://example.com/path").length
      ∧ IsBaseOf (str "https://example.com/path") (str "https://example.com")
      ∧ normalizeFavicon (str "https://example.com/path") (str "/icon.png")
          = some (str "https://example.com/icon.png")
      ∧ normalizeFavicon (str "https://example.com/path") (str "icon.png")
          = some (str "https://example.com/path/icon.png")
      ∧ normalizeFavicon (str "https://example.com/path") (str "https://cdn.example/i.png")
          = some (str "https://cdn.example/i.png") := by
  have hlen : 8 ≤ (str "https://example.com/path").length := by decide
  have hbase : IsBaseOf (str "https://example.com/path") (str "https://example.com") := by
    left
    refine ⟨19, by decide, by decide, ?_, by decide⟩
    intro j h1 h2
    interval_cases j <;> decide
  have e1 := (favicon_normalization (str "https://example.com/path") (str "/icon.png") hlen).2
    _ hbase
  have e2 := (favicon_normalization (str "https://example.com/path") (str "icon.png") hlen).2
    _ hbase
  have e3 := (favicon_normalization (str "https://example.com/path")
    (str "https://cdn.example/i.png") hlen).2 _ hbase
  exact ⟨hlen, hbase, e1.trans (by decide), e2.trans (by decide), e3.trans (by decide)⟩

/-- C7: for a fetch URL of at least 8 bytes and every parsed document, `fetchPageMetadata`
succeeds with a non-empty favicon; when the document has no `<link>` element with `rel`
exactly `icon` or `shortcut icon` that favicon is `https://fav.farm/📸`, and then, with no
title and no favicon override, `getMetadata` returns the favicon `https://fav.farm/📸`, which
is not `https://fav.farm/🎭`. -/
theorem extractor_default_favicon (w : World) (host url : GoString) (doc : Node)
    (hlen : 8 ≤ url.length) (hfetch : w.Fetch url = .parsed doc) :
    ∃ title favicon, fetchPageMetadata w url = some (title, favicon, none) ∧ favicon ≠ []
      ∧ ((∀ n ∈ preorder doc, isIconLink n = false) →
          favicon = str "https://fav.farm/📸"
            ∧ (noValue (queryDNSTXTRecord w host dnsTitlePrefix) →
               noValue (queryDNSTXTRecord w host dnsFaviconPrefix) →
               ∃ t, getMetadata w host url = some (t, str "https://fav.farm/📸")
                 ∧ str "https://fav.farm/📸" ≠ str "https://fav.farm/🎭")) := by
  have hfull := fetchPageMetadata_long w url doc hlen hfetch
  refine ⟨_, _, hfull, ?_, ?_⟩
  · cases hl : lastIconLink doc with
    | none => exact extractorFavicon_ne_nil
    | some n =>
      obtain ⟨b, _, hb⟩ := normalizeFavicon_eq url (attrVal (str "href") n.Attr) hlen
      simp only [hb, Option.getD_some]
      exact specFavicon_ne_nil url b _
  · intro hno
    have hl : lastIconLink doc = none := by
      unfold lastIconLink
      have : (preorder doc).filter isIconLink = [] := by
        rw [List.filter_eq_nil_iff]
        intro n hn
        rw [hno n hn]
        exact Bool.false_ne_true
      rw [this]
      rfl
    refine ⟨by rw [hl], ?_⟩
    intro ht hf
    refine ⟨if ((lastTitle doc).map firstChildData).getD [] = [] then getTitle w
      else ((lastTitle doc).map firstChildData).getD [], ?_, by decide⟩
    unfold getMetadata
    rw [hfull, hl, getMetadataFrom_page _ _ _ _ _ ht hf, if_neg extractorFavicon_ne_nil]

/-- Witness of C7: a page without icon link, and a page whose icon link has no `href`. -/
theorem extractor_default_favicon_witness :
    8 ≤ exampleURL.length
      ∧ (exampleWorld [] (.parsed noIconDoc)).Fetch exampleURL = .parsed noIconDoc
      ∧ (preorder noIconDoc).filter isIconLink = []
      ∧ getMetadata (exampleWorld [] (.parsed noIconDoc)) exampleHost exampleURL
          = some (str "Plain", str "https://fav.farm/📸")
      ∧ fetchPageMetadata (exampleWorld [] (.parsed bareIconDoc)) exampleURL
          = some ([], str "https://example.com/", none)
      ∧ ∃ title favicon,
          fetchPageMetadata (exampleWorld [] (.parsed noIconDoc)) exampleURL
              = some (title, favicon, none)
            ∧ favicon ≠ [] :=
  have h := extractor_default_favicon (exampleWorld [] (.parsed noIconDoc)) exampleHost
    exampleURL noIconDoc (by decide) rfl
  ⟨by decide, rfl, rfl, by decide, by decide,
    h.elim fun title h1 => h1.elim fun favicon h2 => ⟨title, favicon, h2.1, h2.2.1⟩⟩

/-- C8 fails on the code: for a successful response whose first TXT record holds no string,
`queryRedirectTarget` panics on `rr.Txt[0]` and returns nothing, where `queryDNSTXTRecord`,
which tests `len(rr.Txt) > 0`, returns an error for the same response. -/
theorem queryRedirectTarget_empty_txt_panics :
    emptyTxtWorld.Exchange (dnsPrefix ++ str "." ++ exampleHost)
        = some { Rcode := RcodeSuccess, Answer := [.TXT []] }
      ∧ queryRedirectTarget emptyTxtWorld exampleHost = none
      ∧ queryDNSTXTRecord emptyTxtWorld exampleHost dnsPrefix = ([], some .recordNotFound)
      ∧ Root emptyTxtWorld { Path := str "/", Host := exampleHost } = none := by
  decide

/-- C9: when the `_frame_title` and `_frame_favicon` lookups both yield no value and the
target page fetch fails, `getMetadata` returns the value of `FRAME_TITLE` (`Brighella` when it
is empty or unset) as title and `https://fav.farm/🎭` as favicon, and no error. -/
theorem defaults_when_nothing_found (w : World) (host url : GoString)
    (ht : noValue (queryDNSTXTRecord w host dnsTitlePrefix))
    (hf : noValue (queryDNSTXTRecord w host dnsFaviconPrefix))
    (hfetch : ∀ doc, w.Fetch url ≠ .parsed doc) :
    getMetadata w host url
      = some (if w.Getenv (str "FRAME_TITLE") = [] then str "Brighella"
              else w.Getenv (str "FRAME_TITLE"),
              str "https://fav.farm/🎭") := by
  obtain ⟨e, he⟩ := fetchPageMetadata_failed w url hfetch
  unfold getMetadata
  rw [he, getMetadataFrom_failed _ _ _ _ _ e ht hf]
  rfl

/-- Witness of C9: no TXT record, an unreachable page and an empty environment. -/
theorem defaults_when_nothing_found_witness :
    noValue (queryDNSTXTRecord (exampleWorld [] .getFailed) exampleHost dnsTitlePrefix)
      ∧ noValue (queryDNSTXTRecord (exampleWorld [] .getFailed) exampleHost dnsFaviconPrefix)
      ∧ getMetadata (exampleWorld [] .getFailed) exampleHost exampleURL
          = some (str "Brighella", str "https://fav.farm/🎭") :=
  ⟨by decide, by decide,
    (defaults_when_nothing_found (exampleWorld [] .getFailed) exampleHost exampleURL
      (by decide) (by decide) (fun _ h => PageFetch.noConfusion h)).trans (by decide)⟩

/-- C10 fails on the code: for the path `/other` the `Root` handler redirects to `/` with the
status `http.StatusTemporaryRedirect`, which is 307 and not 302, in every world and for every
host (so without reading any DNS answer or page). -/
theorem Root_redirect_status_is_307 (w : World) (host : GoString) :
    Root w { Path := str "/other", Host := host }
        = some (.redirect (str "/") StatusTemporaryRedirect)
      ∧ StatusTemporaryRedirect = 307
      ∧ Root w { Path := str "/other", Host := host } ≠ some (.redirect (str "/") StatusFound) := by
  have hp : str "/other" ≠ str "/" := by decide
  have hr : Root w { Path := str "/other", Host := host }
      = some (.redirect (str "/") StatusTemporaryRedirect) := by
    simp only [Root, TemporaryRedirect, if_pos hp]
  refine ⟨hr, rfl, ?_⟩
  rw [hr]
  decide

end Brighella
